import Mathlib

/-!
Shallow embedding of the Arke agent-template repository.

The repository ships two sibling variants of the same agent:
* a Hono worker backed by a KV job store (`src/index.ts`, `src/state.ts`,
  `src/types.ts`) whose `POST /process` handler creates the record and
  spawns `processJob` in the background, and
* a Durable-Object runner (`src/agent-job.ts`, extending `BaseAgentDO`
  from `@arke-institute/agent-core`) with `handleStart`, `processAlarm`,
  `writeLog` and `updateJobCollectionStatus`.

Both are embedded below.  External collaborators absent from the source
tree (the `verify.ts` signature check, `BaseAgentDO` helpers such as
`isExpired` and `failJob`, the network) are modelled as explicit
parameters or as definitions marked `Modelled from the spec:`.
-/

namespace Agent

/-- JSON values, used for the KV store contents and for the opaque
`options` / `data` payloads (`Record<string, unknown>` in the source). -/
inductive Json where
  | null
  | bool (b : Bool)
  | num (n : Int)
  | str (s : String)
  | arr (xs : List Json)
  | obj (fields : List (String × Json))

/-- `JobState.status` from `src/types.ts`:
`'pending' | 'running' | 'done' | 'error'`. -/
inductive Status where
  | pending
  | running
  | done
  | error
  deriving DecidableEq

/-- The string the TypeScript union member serializes to. -/
def Status.toStr : Status → String
  | .pending => "pending"
  | .running => "running"
  | .done => "done"
  | .error => "error"

/-- Inverse of `Status.toStr`, used when reading a record back from KV. -/
def Status.ofStr : String → Option Status
  | "pending" => some .pending
  | "running" => some .running
  | "done" => some .done
  | "error" => some .error
  | _ => none

/-- `TaskInput` from `src/task.ts`: `{ entity_id: string; options?: TaskOptions }`.
The agent-specific `options` object is opaque JSON. -/
structure TaskInput where
  entity_id : String
  options : Option Json

/-- `TaskResult` from `src/task.ts`:
`{ success: boolean; message: string; data?: Record<string, unknown> }`. -/
structure TaskResult where
  success : Bool
  message : String
  data : Option Json

/-- `JobState.error` payload: `{ code: string; message: string }`. -/
structure ErrorInfo where
  code : String
  message : String
  deriving DecidableEq

/-- `JobState` from `src/types.ts`, with the field set actually used by
`src/index.ts` (which stores `job_collection`; the `types.ts` snapshot
names this reference `log_pi` — the two-scheme divergence the design
notes call out).  Optional fields are `undefined`-omitted in JSON. -/
structure JobState where
  job_id : String
  status : Status
  entity_id : String
  target : String
  job_collection : String
  api_base : String
  expires_at : String
  input : TaskInput
  started_at : String
  completed_at : Option String
  result : Option TaskResult
  error : Option ErrorInfo

/-- The KV namespace (`env.JOBS`): newest binding first, as an
association list from key to the parsed JSON document stored there. -/
def Store := List (String × Json)

/-- `kv.put(key, value)` — the new value shadows any previous one. -/
def kvPut (kv : Store) (key : String) (v : Json) : Store :=
  (key, v) :: kv

/-- `kv.get(key, 'json')`. -/
def kvGet (kv : Store) (key : String) : Option Json :=
  List.lookup key kv

-- JSON (de)serialization of a `JobState`, mirroring `JSON.stringify`
-- (optional fields omitted when `undefined`) and the unchecked
-- `data as JobState` read in `src/state.ts`.

/-- Serialize a `TaskInput` the way `JSON.stringify` does. -/
def encodeTaskInput (i : TaskInput) : Json :=
  .obj ([("entity_id", .str i.entity_id)] ++
    (match i.options with
     | none => []
     | some o => [("options", o)]))

/-- Serialize a `TaskResult` the way `JSON.stringify` does. -/
def encodeTaskResult (r : TaskResult) : Json :=
  .obj ([("success", .bool r.success), ("message", .str r.message)] ++
    (match r.data with
     | none => []
     | some d => [("data", d)]))

/-- Serialize an error payload. -/
def encodeErrorInfo (e : ErrorInfo) : Json :=
  .obj [("code", .str e.code), ("message", .str e.message)]

/-- Serialize a full `JobState` the way `JSON.stringify` does. -/
def encodeJobState (s : JobState) : Json :=
  .obj ([("job_id", .str s.job_id),
         ("status", .str s.status.toStr),
         ("entity_id", .str s.entity_id),
         ("target", .str s.target),
         ("job_collection", .str s.job_collection),
         ("api_base", .str s.api_base),
         ("expires_at", .str s.expires_at),
         ("input", encodeTaskInput s.input),
         ("started_at", .str s.started_at)] ++
    (match s.completed_at with
     | none => []
     | some t => [("completed_at", .str t)]) ++
    (match s.result with
     | none => []
     | some r => [("result", encodeTaskResult r)]) ++
    (match s.error with
     | none => []
     | some e => [("error", encodeErrorInfo e)]))

/-- Extract a string. -/
def Json.getStr : Json → Option String
  | .str s => some s
  | _ => none

/-- Extract a boolean. -/
def Json.getBool : Json → Option Bool
  | .bool b => some b
  | _ => none

/-- Field lookup on a JSON object. -/
def Json.field (j : Json) (k : String) : Option Json :=
  match j with
  | .obj fields => List.lookup k fields
  | _ => none

/-- Read a `TaskInput` back from JSON. -/
def decodeTaskInput (j : Json) : Option TaskInput := do
  let e ← (j.field "entity_id").bind Json.getStr
  pure { entity_id := e, options := j.field "options" }

/-- Read a `TaskResult` back from JSON. -/
def decodeTaskResult (j : Json) : Option TaskResult := do
  let s ← (j.field "success").bind Json.getBool
  let m ← (j.field "message").bind Json.getStr
  pure { success := s, message := m, data := j.field "data" }

/-- Read an error payload back from JSON. -/
def decodeErrorInfo (j : Json) : Option ErrorInfo := do
  let c ← (j.field "code").bind Json.getStr
  let m ← (j.field "message").bind Json.getStr
  pure { code := c, message := m }

/-- Read a full `JobState` back from JSON. -/
def decodeJobState (j : Json) : Option JobState := do
  let id ← (j.field "job_id").bind Json.getStr
  let st ← ((j.field "status").bind Json.getStr).bind Status.ofStr
  let eid ← (j.field "entity_id").bind Json.getStr
  let tg ← (j.field "target").bind Json.getStr
  let jc ← (j.field "job_collection").bind Json.getStr
  let ab ← (j.field "api_base").bind Json.getStr
  let ex ← (j.field "expires_at").bind Json.getStr
  let inp ← (j.field "input").bind decodeTaskInput
  let sa ← (j.field "started_at").bind Json.getStr
  let ca ← match j.field "completed_at" with
    | none => pure none
    | some v => v.getStr.map some
  let r ← match j.field "result" with
    | none => pure none
    | some v => (decodeTaskResult v).map some
  let e ← match j.field "error" with
    | none => pure none
    | some v => (decodeErrorInfo v).map some
  pure { job_id := id, status := st, entity_id := eid, target := tg,
         job_collection := jc, api_base := ab, expires_at := ex,
         input := inp, started_at := sa, completed_at := ca,
         result := r, error := e }

-- `src/state.ts`

/-- `saveJobState` from `src/state.ts`: puts the serialized record under
key `job:` ++ job_id (the 24h `expirationTtl` is a storage policy with no
bearing on the stored value). -/
def saveJobState (kv : Store) (state : JobState) : Store :=
  kvPut kv ("job:" ++ state.job_id) (encodeJobState state)

/-- `getJobState` from `src/state.ts`: reads and parses the record under
key `job:` ++ job_id. -/
def getJobState (kv : Store) (jobId : String) : Option JobState :=
  (kvGet kv ("job:" ++ jobId)).bind decodeJobState

-- `src/index.ts` — the Hono worker variant

/-- `JobRequest` as consumed by `src/index.ts` (the result of an
unchecked cast of `JSON.parse(body)`).  A missing string field is
modelled as the empty string, which is exactly what the handler's
falsiness checks test; the optional `input` object models
`jobRequest.input?.entity_id`. -/
structure JobRequest where
  job_id : String
  target : String
  job_collection : String
  input : Option TaskInput
  api_base : String
  expires_at : String

/-- `VerifyResult` from `src/types.ts`: the outcome of
`verifyArkeSignature` (the `verify.ts` implementation is not in the
source tree, so the handler is parameterised by its outcome). -/
structure VerifyResult where
  valid : Bool
  error : Option String

/-- `JobResponse` from `src/types.ts`, together with the HTTP status
code the handler attaches. -/
inductive JobResponse where
  | accepted (job_id : String)
  | rejected (code : Nat) (error : String) (retry_after : Option Nat)
  deriving DecidableEq

/-- Whether a response is the acceptance `{accepted:true, job_id}`. -/
def JobResponse.isAccepted : JobResponse → Bool
  | .accepted _ => true
  | .rejected _ _ _ => false

/-- The request-scoped data `app.post('/process')` branches on:
the signature header, the parse of the body, the signature-verification
outcome, the configured API key and the current time. -/
structure ProcessInput where
  signatureHeader : Option String
  parsed : Option JobRequest
  verify : VerifyResult
  apiKey : String
  now : String

/-- The initial record built at step 5 of `app.post('/process')`
(`src/index.ts` lines 93–103): status `pending`, `started_at` now,
no `completed_at`, `result` or `error`. -/
def initialJobState (req : JobRequest) (entityId now : String) : JobState :=
  { job_id := req.job_id,
    status := .pending,
    entity_id := entityId,
    target := req.target,
    job_collection := req.job_collection,
    api_base := req.api_base,
    expires_at := req.expires_at,
    input := (req.input).getD { entity_id := entityId, options := none },
    started_at := now,
    completed_at := none,
    result := none,
    error := none }

/-- `app.post('/process')` from `src/index.ts`: returns the HTTP
response, the KV store after the handler, and the job state handed to
the background `processJob` run (via `waitUntil`), if any. -/
def processHandler (i : ProcessInput) (kv : Store) :
    JobResponse × Store × Option JobState :=
  match i.signatureHeader with
  | none => (.rejected 401 "Missing signature header" none, kv, none)
  | some _ =>
    match i.parsed with
    | none => (.rejected 400 "Invalid JSON body" none, kv, none)
    | some req =>
      if !i.verify.valid then
        (.rejected 401 ((i.verify.error).getD "Invalid signature") none, kv, none)
      else if req.job_id = "" || req.target = "" || req.job_collection = "" then
        (.rejected 400 "Missing required fields" none, kv, none)
      else
        let entityId := ((req.input).map TaskInput.entity_id).getD ""
        if entityId = "" then
          (.rejected 400 "Missing entity_id in input" none, kv, none)
        else if i.apiKey = "" then
          (.rejected 503 "Agent not configured" (some 60), kv, none)
        else
          let jobState := initialJobState req entityId i.now
          (.accepted req.job_id, saveJobState kv jobState, some jobState)

/-- Outcome of awaiting the opaque `runTask` callback: a result, or a
thrown value (`thrown (some m)` for an `Error` with message `m`,
`thrown none` for a non-`Error` throw). -/
inductive TaskOutcome where
  | ok (r : TaskResult)
  | thrown (msg : Option String)

/-- Message extraction at the catch site:
`err instanceof Error ? err.message : 'Unknown error'`. -/
def taskErrorMessage (m : Option String) : String :=
  m.getD "Unknown error"

/-- Observable effects of one `processJob` run.  `propagations` counts
invocations of a collection-status propagator during the run. -/
structure ProcessJobRun where
  saves : List JobState
  logAttempts : Nat
  propagations : Nat
  finalState : JobState

/-- `processJob` from `src/index.ts`: sets `running` and saves, runs the
task, converts the outcome (catching any throw) to `done`/`error` with
`completed_at`, attempts the log write once inside its own try/catch,
and saves the final state.  `logOk` is whether `writeJobLog` resolves
without throwing; its failure is swallowed.  This variant contains no
status-propagation call at all — `writeJobLog` is its only external
write — so `propagations` is 0. -/
def processJob (state : JobState) (task : TaskOutcome) (logOk : Bool)
    (now : String) : ProcessJobRun :=
  let s1 : JobState := { state with status := .running }
  let s2 : JobState :=
    match task with
    | .ok r => { s1 with status := .done, result := some r, completed_at := some now }
    | .thrown m =>
      { s1 with status := .error,
                error := some { code := "TASK_FAILED", message := taskErrorMessage m },
                completed_at := some now }
  -- the log attempt happens whether or not it succeeds; a throw is caught
  let _ := logOk
  { saves := [s1, s2], logAttempts := 1, propagations := 0, finalState := s2 }

-- `src/agent-job.ts` — the Durable-Object variant

/-- Progress counters `{total, pending, dispatched, done, error}`. -/
structure Progress where
  total : Nat
  pending : Nat
  dispatched : Nat
  done : Nat
  error : Nat
  deriving DecidableEq

/-- `AgentJobState`, with the fields `handleStart` populates. -/
structure AgentJobState where
  job_id : String
  status : Status
  target : String
  job_collection : String
  api_base : String
  expires_at : String
  network : Option String
  entity_id : String
  input : TaskInput
  progress : Progress
  started_at : String
  completed_at : Option String
  result : Option TaskResult
  error : Option ErrorInfo

/-- `StartRequest` as consumed by `handleStart`. -/
structure StartRequest where
  job_id : String
  target : String
  job_collection : String
  api_base : String
  expires_at : String
  network : Option String
  input : Option TaskInput

/-- `JobResponse` as produced by `handleStart`
(`{accepted:true, job_id}` or `{accepted:false, error}`). -/
inductive StartResponse where
  | accepted (job_id : String)
  | rejected (error : String)
  deriving DecidableEq

/-- Side effects of one `handleStart` call. -/
structure StartEffects where
  saved : Option AgentJobState
  alarmScheduled : Bool

/-- The initial record `handleStart` creates: status `pending`,
progress `{total:1, pending:1, dispatched:0, done:0, error:0}`. -/
def initialAgentState (req : StartRequest) (entityId now : String) :
    AgentJobState :=
  { job_id := req.job_id,
    status := .pending,
    target := req.target,
    job_collection := req.job_collection,
    api_base := req.api_base,
    expires_at := req.expires_at,
    network := req.network,
    entity_id := entityId,
    input := (req.input).getD { entity_id := entityId, options := none },
    progress := { total := 1, pending := 1, dispatched := 0, done := 0, error := 0 },
    started_at := now,
    completed_at := none,
    result := none,
    error := none }

/-- `handleStart` from `src/agent-job.ts`: if a record already exists it
returns acceptance immediately, writing nothing and scheduling nothing;
otherwise it validates `input.entity_id`, creates the pending record and
schedules an immediate alarm. -/
def handleStart (existing : Option AgentJobState) (req : StartRequest)
    (now : String) : StartResponse × StartEffects :=
  match existing with
  | some _ => (.accepted req.job_id, { saved := none, alarmScheduled := false })
  | none =>
    let entityId := ((req.input).map TaskInput.entity_id).getD ""
    if entityId = "" then
      (.rejected "Missing entity_id in input", { saved := none, alarmScheduled := false })
    else
      (.accepted req.job_id,
       { saved := some (initialAgentState req entityId now), alarmScheduled := true })

-- `updateJobCollectionStatus` — OCC status propagation with retry

/-- Outcome of one iteration of the propagation loop: the GET of the
collection throws, the collection is absent, the PUT throws, the PUT
returns an error response (`isConflict`: its JSON contains `409` or
`Conflict`), or the PUT succeeds. -/
inductive AttemptOutcome where
  | getThrows
  | collectionMissing
  | putThrows
  | putError (isConflict : Bool)
  | success
  deriving DecidableEq

/-- `Math.pow(2, attempt) * 100 + Math.random() * 100`; the random part
is the `jitter` argument (in milliseconds, `< 100`). -/
def backoffDelay (attempt : Nat) (jitter : Nat → Nat) : Nat :=
  2 ^ attempt * 100 + jitter attempt

/-- Observable result of one `updateJobCollectionStatus` invocation:
how many loop iterations (update attempts) ran, whether one succeeded,
whether it aborted because the collection was gone, and the sleeps
performed between attempts. -/
structure PropagationRun where
  attempts : Nat
  succeeded : Bool
  abortedMissing : Bool
  delays : List Nat
  deriving DecidableEq

/-- The `for (attempt …)` loop body of `updateJobCollectionStatus`,
from attempt `i` with `remaining` iterations allowed.  On the final
iteration neither the conflict branch nor the catch branch sleeps or
continues. -/
def updateAttempts (o : Nat → AttemptOutcome) (jitter : Nat → Nat) :
    Nat → Nat → PropagationRun
  | _, 0 => { attempts := 0, succeeded := false, abortedMissing := false, delays := [] }
  | i, 1 =>
    match o i with
    | .collectionMissing =>
      { attempts := 1, succeeded := false, abortedMissing := true, delays := [] }
    | .success =>
      { attempts := 1, succeeded := true, abortedMissing := false, delays := [] }
    | _ =>
      { attempts := 1, succeeded := false, abortedMissing := false, delays := [] }
  | i, remaining + 2 =>
    match o i with
    | .collectionMissing =>
      { attempts := 1, succeeded := false, abortedMissing := true, delays := [] }
    | .success =>
      { attempts := 1, succeeded := true, abortedMissing := false, delays := [] }
    | .putError false =>
      -- a non-conflict error response logs and returns: no retry
      { attempts := 1, succeeded := false, abortedMissing := false, delays := [] }
    | .putError true =>
      let rest := updateAttempts o jitter (i + 1) (remaining + 1)
      { attempts := rest.attempts + 1, succeeded := rest.succeeded,
        abortedMissing := rest.abortedMissing,
        delays := backoffDelay i jitter :: rest.delays }
    | .getThrows =>
      let rest := updateAttempts o jitter (i + 1) (remaining + 1)
      { attempts := rest.attempts + 1, succeeded := rest.succeeded,
        abortedMissing := rest.abortedMissing,
        delays := backoffDelay i jitter :: rest.delays }
    | .putThrows =>
      let rest := updateAttempts o jitter (i + 1) (remaining + 1)
      { attempts := rest.attempts + 1, succeeded := rest.succeeded,
        abortedMissing := rest.abortedMissing,
        delays := backoffDelay i jitter :: rest.delays }

/-- `updateJobCollectionStatus` from `src/agent-job.ts`:
`maxRetries = 3`, starting at attempt 0. -/
def updateJobCollectionStatus (o : Nat → AttemptOutcome) (jitter : Nat → Nat) :
    PropagationRun :=
  updateAttempts o jitter 0 3

/-- Outcomes on which one attempt stops the loop by returning:
collection gone, success, or a non-conflict error response. -/
def stopsLoop : AttemptOutcome → Bool
  | .collectionMissing => true
  | .success => true
  | .putError b => !b
  | _ => false

-- `writeLog` — log flush plus status propagation, failures swallowed

/-- Observable effects of one `writeLog` call. -/
structure WriteLogRun where
  logAttempts : Nat
  propagations : Nat
  propagation : Option PropagationRun

/-- `writeLog` from `src/agent-job.ts`: one `writeJobLog` attempt; if it
throws (`logOk = false`) the catch swallows the error and
`updateJobCollectionStatus` is never reached, otherwise the propagator
is invoked exactly once.  Job state is never touched. -/
def writeLog (logOk : Bool) (o : Nat → AttemptOutcome) (jitter : Nat → Nat) :
    WriteLogRun :=
  if logOk then
    { logAttempts := 1, propagations := 1,
      propagation := some (updateJobCollectionStatus o jitter) }
  else
    { logAttempts := 1, propagations := 0, propagation := none }

-- `processAlarm` — the alarm-driven runner

/-- Modelled from the spec: `BaseAgentDO.failJob` (agent-core is not in
the source tree).  Per §4.2 it moves the record to `error` with the
given code and message; terminal records carry `completed_at` (§3) and
the progress counters keep summing to `total` (§3), so the in-flight
unit moves from `dispatched` to `error`.  The record is persisted. -/
def failJob (s : AgentJobState) (code msg now : String) : AgentJobState :=
  { s with status := .error,
           error := some { code := code, message := msg },
           completed_at := some now,
           progress := { s.progress with dispatched := 0, error := 1 } }

/-- The environment-supplied outcomes one alarm firing can observe:
the `isExpired` check (`BaseAgentDO`, not in the source tree), the task
outcome, whether `writeJobLog` resolves, the propagation outcomes and
jitter, and the completion timestamp. -/
structure AlarmOutcome where
  expired : Bool
  task : TaskOutcome
  logOk : Bool
  prop : Nat → AttemptOutcome
  jitter : Nat → Nat
  now : String

/-- Observable effects of one `processAlarm` run: the records persisted
via `saveState` in order, whether the task callback was invoked, the
`writeLog` effects, and the returned re-arm flag. -/
structure AlarmRun where
  saves : List AgentJobState
  taskInvoked : Bool
  log : WriteLogRun
  rearm : Bool

/-- The `pending → running` block at the top of `processAlarm`:
if the record is pending, set `running`, zero `progress.pending`,
set `progress.dispatched := 1`. -/
def runningOf (s : AgentJobState) : AgentJobState :=
  if s.status = .pending then
    { s with status := .running,
             progress := { s.progress with pending := 0, dispatched := 1 } }
  else s

/-- `processAlarm` from `src/agent-job.ts`.  Order is exactly the
source's: (1) if pending, transition to running and save; (2) check
expiry — if expired, `failJob` with `EXPIRED`, `writeLog`, return false,
never invoking the task; (3) run the task, converting success to `done`
and any throw to `error{TASK_FAILED}`, both with `completed_at` and
updated progress; (4) save, `writeLog`, return false. -/
def processAlarm (s : AgentJobState) (o : AlarmOutcome) : AlarmRun :=
  let s1 := runningOf s
  let pre : List AgentJobState := if s.status = .pending then [s1] else []
  if o.expired then
    let s2 := failJob s1 "EXPIRED" "Job expired before completion" o.now
    { saves := pre ++ [s2], taskInvoked := false,
      log := writeLog o.logOk o.prop o.jitter, rearm := false }
  else
    let s2 : AgentJobState :=
      match o.task with
      | .ok r =>
        { s1 with status := .done, result := some r, completed_at := some o.now,
                  progress := { s1.progress with dispatched := 0, done := 1 } }
      | .thrown m =>
        { s1 with status := .error,
                  error := some { code := "TASK_FAILED", message := taskErrorMessage m },
                  completed_at := some o.now,
                  progress := { s1.progress with dispatched := 0, error := 1 } }
    { saves := pre ++ [s2], taskInvoked := true,
      log := writeLog o.logOk o.prop o.jitter, rearm := false }

-- Lifecycle traces

/-- Terminal statuses. -/
def Status.isTerminal : Status → Bool
  | .done => true
  | .error => true
  | _ => false

/-- Position along `pending → running → {done|error}`. -/
def Status.rank : Status → Nat
  | .pending => 0
  | .running => 1
  | .done => 2
  | .error => 2

/-- The sequence of records persisted for one job under the
Durable-Object lifecycle: `handleStart` writes the initial pending
record once; each alarm firing appends the saves of one `processAlarm`
run, starting from the last persisted record.  Modelled from the spec:
the scheduling primitive "guarantees it does not run twice for a
terminal job" (§2), so an alarm run starts only from a non-terminal
record. -/
inductive Trace : List AgentJobState → Prop
  | start (req : StartRequest) (now : String) (st : AgentJobState)
      (hsaved : (handleStart none req now).2.saved = some st) :
      Trace [st]
  | alarm (ws : List AgentJobState) (s : AgentJobState) (o : AlarmOutcome)
      (ht : Trace ws) (hlast : ws.getLast? = some s)
      (hnt : s.status.isTerminal = false) :
      Trace (ws ++ (processAlarm s o).saves)

/-- The per-record invariant maintained by the lifecycle:
`completed_at` is present exactly on terminal records, and the progress
counters are the ones the runner writes for each status. -/
def progressFor : Status → Progress
  | .pending => { total := 1, pending := 1, dispatched := 0, done := 0, error := 0 }
  | .running => { total := 1, pending := 0, dispatched := 1, done := 0, error := 0 }
  | .done => { total := 1, pending := 0, dispatched := 0, done := 1, error := 0 }
  | .error => { total := 1, pending := 0, dispatched := 0, done := 0, error := 1 }

/-- Bundled record invariant. -/
def RecordInv (s : AgentJobState) : Prop :=
  s.completed_at.isSome = s.status.isTerminal ∧ s.progress = progressFor s.status

-- Concrete sample data (used by witnesses and counterexamples)

/-- A well-formed job request for job `J1`. -/
def sampleRequest : JobRequest :=
  { job_id := "J1", target := "C1", job_collection := "JC1",
    input := some { entity_id := "E1", options := none },
    api_base := "https://api.example", expires_at := "2026-01-01T00:00:00Z" }

/-- A fully valid first submission of `J1`. -/
def sampleProcessInput : ProcessInput :=
  { signatureHeader := some "t=1,v1=abc", parsed := some sampleRequest,
    verify := { valid := true, error := none }, apiKey := "ak_1",
    now := "2025-01-01T00:00:00Z" }

/-- The same submission arriving again later. -/
def dupProcessInput : ProcessInput :=
  { sampleProcessInput with now := "2025-01-01T01:00:00Z" }

/-- A successful task result. -/
def sampleResult : TaskResult :=
  { success := true, message := "ok", data := none }

/-- The record of `J1` after it completed successfully. -/
def doneJobState : JobState :=
  { job_id := "J1", status := .done, entity_id := "E1", target := "C1",
    job_collection := "JC1", api_base := "https://api.example",
    expires_at := "2026-01-01T00:00:00Z",
    input := { entity_id := "E1", options := none },
    started_at := "2025-01-01T00:00:00Z",
    completed_at := some "2025-01-01T00:05:00Z",
    result := some sampleResult, error := none }

/-- A store already holding the completed record of `J1`. -/
def kvWithDoneJob : Store := saveJobState [] doneJobState

/-- A start request for the Durable-Object variant. -/
def sampleStartRequest : StartRequest :=
  { job_id := "J1", target := "C1", job_collection := "JC1",
    api_base := "https://api.example", expires_at := "2026-01-01T00:00:00Z",
    network := none, input := some { entity_id := "E1", options := none } }

/-- The pending record `handleStart` creates for `sampleStartRequest`. -/
def sampleAgentState : AgentJobState :=
  initialAgentState sampleStartRequest "E1" "2025-01-01T00:00:00Z"

/-- An alarm firing that observes the job already expired. -/
def expiredAlarmOutcome : AlarmOutcome :=
  { expired := true, task := .ok sampleResult, logOk := true,
    prop := fun _ => .success, jitter := fun _ => 0,
    now := "2026-02-01T00:00:00Z" }

/-- An alarm firing where the task throws and the log write fails. -/
def failedTaskAlarmOutcome : AlarmOutcome :=
  { expired := false, task := .thrown (some "boom"), logOk := false,
    prop := fun _ => .success, jitter := fun _ => 0,
    now := "2025-01-01T00:05:00Z" }

/-- An alarm firing where everything succeeds. -/
def okAlarmOutcome : AlarmOutcome :=
  { expired := false, task := .ok sampleResult, logOk := true,
    prop := fun _ => .success, jitter := fun _ => 0,
    now := "2025-01-01T00:05:00Z" }

/-- Propagation outcomes where every PUT yields a non-conflict error
response. -/
def nonConflictOutcomes : Nat → AttemptOutcome := fun _ => .putError false

/-- Serialization round-trips every field of a `JobState`. -/
theorem decode_encode_jobState (s : JobState) :
    decodeJobState (encodeJobState s) = some s := by
  obtain ⟨id, st, eid, tg, jc, ab, ex, ⟨ie, io⟩, sa, ca, r, e⟩ := s
  cases st <;> cases io <;> cases ca <;>
    rcases r with _ | ⟨rs, rm, rd⟩ <;> rcases e with _ | ⟨ec, em⟩ <;>
    first
      | rfl
      | (cases rd <;> rfl)

/-- C9: a `JobState` saved with `saveJobState` and reloaded with
`getJobState` for the same `job_id` is field-for-field the record that
was saved — the JSON serialize/parse round trip through the KV store
preserves every field. -/
theorem save_get_roundtrip (kv : Store) (s : JobState) :
    getJobState (saveJobState kv s) s.job_id = some s := by
  unfold getJobState saveJobState kvGet kvPut
  rw [List.lookup]
  simp [decode_encode_jobState]

/-- Case analysis of `app.post('/process')`: either the request is
rejected and neither the store nor the background task is touched, or
every gate passed (header present, body parsed, signature valid,
required fields and `entity_id` non-empty, API key configured) and the
handler saved exactly the fresh pending record it hands to
`processJob`. -/
theorem processHandler_cases (i : ProcessInput) (kv : Store) :
    ((processHandler i kv).1.isAccepted = false ∧ (processHandler i kv).2.1 = kv
      ∧ (processHandler i kv).2.2 = none)
    ∨ (∃ req : JobRequest,
        i.parsed = some req ∧ i.verify.valid = true ∧ i.signatureHeader.isSome
        ∧ ((req.input).map TaskInput.entity_id).getD "" ≠ ""
        ∧ i.apiKey ≠ ""
        ∧ processHandler i kv
            = (.accepted req.job_id,
               saveJobState kv (initialJobState req (((req.input).map TaskInput.entity_id).getD "") i.now),
               some (initialJobState req (((req.input).map TaskInput.entity_id).getD "") i.now))) := by
  rcases i with ⟨sh, p, v, k, now⟩
  cases sh with
  | none => left; exact ⟨rfl, rfl, rfl⟩
  | some hdr =>
    cases p with
    | none => left; exact ⟨rfl, rfl, rfl⟩
    | some req =>
      by_cases hv : v.valid
      · by_cases hfields : req.job_id = "" || req.target = "" || req.job_collection = ""
        · left
          simp [processHandler, hv, hfields, JobResponse.isAccepted]
        · by_cases hent : ((req.input).map TaskInput.entity_id).getD "" = ""
          · left
            simp [processHandler, hv, hfields, hent, JobResponse.isAccepted]
          · by_cases hkey : k = ""
            · left
              simp [processHandler, hv, hfields, hent, hkey, JobResponse.isAccepted]
            · right
              refine ⟨req, rfl, hv, rfl, hent, hkey, ?_⟩
              simp [processHandler, hv, hfields, hent, hkey]
      · left
        simp [processHandler, hv, JobResponse.isAccepted]

/-- C7: a rejected `POST /process` request (missing header, bad JSON,
failed verification, missing fields, or unconfigured agent) leaves the
job store untouched and spawns no background work; an accepted request
implies signature verification ran and succeeded before the write. -/
theorem process_rejection_touches_nothing (i : ProcessInput) (kv : Store) :
    ((processHandler i kv).1.isAccepted = false →
        (processHandler i kv).2.1 = kv ∧ (processHandler i kv).2.2 = none)
    ∧ ((processHandler i kv).1.isAccepted = true →
        i.verify.valid = true ∧ i.signatureHeader.isSome ∧ i.parsed.isSome) := by
  rcases processHandler_cases i kv with ⟨hr, hkv, hbg⟩ | ⟨req, hp, hv, hs, hent, hkey, heq⟩
  · exact ⟨fun _ => ⟨hkv, hbg⟩, fun h => absurd h (by simp [hr])⟩
  · constructor
    · intro h
      rw [heq] at h
      simp [JobResponse.isAccepted] at h
    · intro _
      exact ⟨hv, hs, by rw [hp]; exact rfl⟩

/-- Witness for C7: a request with no signature header is rejected and
the store is returned unchanged. -/
theorem process_rejection_touches_nothing_witness :
    ((processHandler { sampleProcessInput with signatureHeader := none } kvWithDoneJob).1.isAccepted
        = false)
    ∧ (processHandler { sampleProcessInput with signatureHeader := none } kvWithDoneJob).2.1
        = kvWithDoneJob :=
  ⟨rfl,
   ((process_rejection_touches_nothing
      { sampleProcessInput with signatureHeader := none } kvWithDoneJob).1 rfl).1⟩

/-- Counterexample to C1: in the Hono/KV variant, resubmitting `J1`
after it completed is accepted — but the handler overwrites the stored
record, resetting its status from `done` back to `pending` and its
`started_at` to the new request time, so the existing record is not
left unchanged as the claim states. -/
theorem duplicate_process_resets_record :
    (processHandler dupProcessInput kvWithDoneJob).1 = .accepted "J1"
    ∧ (getJobState kvWithDoneJob "J1").map JobState.status = some .done
    ∧ (getJobState (processHandler dupProcessInput kvWithDoneJob).2.1 "J1").map JobState.status
        = some .pending
    ∧ (getJobState (processHandler dupProcessInput kvWithDoneJob).2.1 "J1").map JobState.started_at
        ≠ (getJobState kvWithDoneJob "J1").map JobState.started_at := by
  refine ⟨rfl, rfl, rfl, ?_⟩
  decide

/-- C1 as amended: the Durable-Object `handleStart` is idempotent — on
an existing record it returns the same acceptance `{accepted:true,
job_id}`, writes nothing and schedules nothing.  The Hono/KV handler
also returns the same acceptance response and creates no record under
any new key, but it overwrites the record for that `job_id` with a
fresh pending state whose `started_at` is the current request time. -/
theorem duplicate_submission_amended :
    (∀ (e : AgentJobState) (req : StartRequest) (now : String),
        (handleStart (some e) req now).1 = .accepted req.job_id
        ∧ (handleStart (some e) req now).2.saved = none
        ∧ (handleStart (some e) req now).2.alarmScheduled = false)
    ∧ (∀ (i : ProcessInput) (kv : Store) (jid : String) (kv' : Store) (bg : Option JobState),
        processHandler i kv = (.accepted jid, kv', bg) →
        ∃ st : JobState, bg = some st ∧ st.status = .pending ∧ st.started_at = i.now
          ∧ st.job_id = jid ∧ kv' = saveJobState kv st
          ∧ ∀ k : String, (kvGet kv' k).isSome
              = ((k == "job:" ++ jid) || (kvGet kv k).isSome)) := by
  constructor
  · intro e req now
    exact ⟨rfl, rfl, rfl⟩
  · intro i kv jid kv' bg h
    rcases processHandler_cases i kv with ⟨hr, _, _⟩ | ⟨req, _, _, _, _, _, heq⟩
    · rw [h] at hr
      simp [JobResponse.isAccepted] at hr
    · rw [h] at heq
      simp only [Prod.mk.injEq, JobResponse.accepted.injEq] at heq
      obtain ⟨hj, hkv, hbg⟩ := heq
      subst hj
      refine ⟨initialJobState req (((req.input).map TaskInput.entity_id).getD "") i.now,
        hbg, rfl, rfl, rfl, hkv, ?_⟩
      intro k
      rw [hkv]
      show (List.lookup k ((("job:" ++ req.job_id), _) :: kv)).isSome = _
      rw [List.lookup]
      cases hk : k == "job:" ++ req.job_id
      · simp [kvGet]
      · simp

/-- Witness for the amended C1, at the concrete duplicate submission of
the completed job `J1`. -/
theorem duplicate_submission_amended_witness :
    ((handleStart (some sampleAgentState) sampleStartRequest "2025-01-01T01:00:00Z").1
        = .accepted "J1")
    ∧ ∃ st : JobState,
        (processHandler dupProcessInput kvWithDoneJob).2.2 = some st
        ∧ st.status = .pending ∧ st.started_at = dupProcessInput.now
        ∧ st.job_id = "J1"
        ∧ (processHandler dupProcessInput kvWithDoneJob).2.1 = saveJobState kvWithDoneJob st
        ∧ ∀ k : String, (kvGet (processHandler dupProcessInput kvWithDoneJob).2.1 k).isSome
            = ((k == "job:" ++ "J1") || (kvGet kvWithDoneJob k).isSome) :=
  ⟨(duplicate_submission_amended.1 sampleAgentState sampleStartRequest "2025-01-01T01:00:00Z").1,
   duplicate_submission_amended.2 dupProcessInput kvWithDoneJob "J1"
     (processHandler dupProcessInput kvWithDoneJob).2.1
     (processHandler dupProcessInput kvWithDoneJob).2.2 rfl⟩

/-- Counterexample to C2: on a pending job that is already expired at
its first alarm firing, `processAlarm` first persists the record with
status `running` and only then fails it with `EXPIRED` — the record
does not transition directly from `pending` to `error` and `running` is
not skipped, contradicting the claim (the task callback is indeed not
invoked). -/
theorem alarm_expired_enters_running :
    (processAlarm sampleAgentState expiredAlarmOutcome).saves.map AgentJobState.status
        = [.running, .error]
    ∧ Status.running
        ∈ (processAlarm sampleAgentState expiredAlarmOutcome).saves.map AgentJobState.status
    ∧ (processAlarm sampleAgentState expiredAlarmOutcome).taskInvoked = false := by
  refine ⟨rfl, ?_, rfl⟩
  rw [show (processAlarm sampleAgentState expiredAlarmOutcome).saves.map AgentJobState.status
        = [.running, .error] from rfl]
  exact List.mem_cons_self ..

/-- C2 as amended: a pending job whose `expires_at` has passed at its
first firing is first transitioned (and persisted) `pending → running`,
then failed `running → error{EXPIRED, "Job expired before completion"}`
without invoking the task callback; the run still performs its single
log-flush attempt (with status propagation when the flush succeeds) and
does not re-arm. -/
theorem alarm_expired_amended (s : AgentJobState) (o : AlarmOutcome)
    (hp : s.status = .pending) (he : o.expired = true) :
    (processAlarm s o).saves.map AgentJobState.status = [.running, .error]
    ∧ ((processAlarm s o).saves.getLast?).map AgentJobState.error
        = some (some { code := "EXPIRED", message := "Job expired before completion" })
    ∧ (processAlarm s o).taskInvoked = false
    ∧ (processAlarm s o).log.logAttempts = 1
    ∧ ((processAlarm s o).log.propagations = if o.logOk then 1 else 0)
    ∧ (processAlarm s o).rearm = false := by
  have hsaves : (processAlarm s o).saves
      = [runningOf s, failJob (runningOf s) "EXPIRED" "Job expired before completion" o.now] := by
    simp [processAlarm, hp, he]
  refine ⟨?_, ?_, ?_, ?_, ?_, ?_⟩
  · rw [hsaves]
    simp [runningOf, failJob, hp]
  · rw [hsaves]
    rfl
  · simp [processAlarm, he]
  · simp only [processAlarm, he, if_true]
    cases o.logOk <;> rfl
  · simp only [processAlarm, he, if_true]
    cases hl : o.logOk <;> simp [writeLog, hl]
  · simp [processAlarm, he]

/-- Witness for the amended C2 at a concrete expired pending job. -/
theorem alarm_expired_amended_witness :
    sampleAgentState.status = .pending
    ∧ expiredAlarmOutcome.expired = true
    ∧ (processAlarm sampleAgentState expiredAlarmOutcome).saves.map AgentJobState.status
        = [.running, .error]
    ∧ (processAlarm sampleAgentState expiredAlarmOutcome).log.logAttempts = 1 :=
  ⟨rfl, rfl,
   (alarm_expired_amended sampleAgentState expiredAlarmOutcome rfl rfl).1,
   (alarm_expired_amended sampleAgentState expiredAlarmOutcome rfl rfl).2.2.2.1⟩

/-- Counterexample to C3, in both cited variants.  Durable-Object
runner: when the task callback throws and the log-flush itself fails,
no status-propagation attempt is made — `updateJobCollectionStatus`
sits inside the same try block as the log write.  Hono/KV `processJob`:
a run whose task throws (here even with the log write succeeding) makes
no status-propagation attempt either, because that variant contains no
propagation call at all.  Both contradict the claim's "exactly one
status-propagation attempt". -/
theorem task_failure_can_skip_propagation :
    ¬ ((processAlarm sampleAgentState failedTaskAlarmOutcome).log.propagations = 1)
    ∧ (processJob (initialJobState sampleRequest "E1" "2025-01-01T00:00:00Z")
          (.thrown (some "boom")) true "2025-01-01T00:05:00Z").propagations = 0 := by
  exact ⟨by decide, rfl⟩

/-- C3 as amended: a task callback that throws is caught inside the
run; the record is persisted with status `error`, code `TASK_FAILED`
and the message extracted from the failure (`err.message` for `Error`
values, `"Unknown error"` otherwise), with `completed_at` set; the run
makes exactly one log-flush attempt and does not re-arm.  Status
propagation differs per variant: the Durable-Object runner makes
exactly one status-propagation attempt when the log flush succeeds (a
log-flush failure skips propagation), while the Hono/KV `processJob`
makes no status-propagation attempt at all. -/
theorem task_failure_amended :
    (∀ (s : AgentJobState) (o : AlarmOutcome) (m : Option String),
      o.expired = false → o.task = .thrown m →
      (∃ fin : AgentJobState,
          (processAlarm s o).saves.getLast? = some fin
          ∧ fin.status = .error
          ∧ fin.error = some { code := "TASK_FAILED", message := taskErrorMessage m }
          ∧ fin.completed_at = some o.now
          ∧ fin.result = s.result)
      ∧ (processAlarm s o).taskInvoked = true
      ∧ (processAlarm s o).log.logAttempts = 1
      ∧ (o.logOk = true → (processAlarm s o).log.propagations = 1)
      ∧ (o.logOk = false → (processAlarm s o).log.propagations = 0)
      ∧ (processAlarm s o).rearm = false)
    ∧ (∀ (st : JobState) (m : Option String) (lg : Bool) (now : String),
      (processJob st (.thrown m) lg now).finalState.status = .error
      ∧ (processJob st (.thrown m) lg now).finalState.error
          = some { code := "TASK_FAILED", message := taskErrorMessage m }
      ∧ (processJob st (.thrown m) lg now).finalState.completed_at = some now
      ∧ (processJob st (.thrown m) lg now).finalState.result = st.result
      ∧ (processJob st (.thrown m) lg now).logAttempts = 1
      ∧ (processJob st (.thrown m) lg now).propagations = 0
      ∧ (processJob st (.thrown m) lg now).saves.getLast?
          = some (processJob st (.thrown m) lg now).finalState) := by
  refine ⟨fun s o m he ht => ?_, fun st m lg now => ⟨rfl, rfl, rfl, rfl, rfl, rfl, rfl⟩⟩
  have hfin : (processAlarm s o).saves.getLast?
      = some { runningOf s with
                 status := .error,
                 error := some { code := "TASK_FAILED", message := taskErrorMessage m },
                 completed_at := some o.now,
                 progress := { (runningOf s).progress with dispatched := 0, error := 1 } } := by
    by_cases hp : s.status = .pending <;>
      simp [processAlarm, he, ht, hp]
  refine ⟨?_, ?_, ?_, ?_, ?_, ?_⟩
  · refine ⟨_, hfin, rfl, rfl, rfl, ?_⟩
    by_cases hp : s.status = .pending <;> simp [runningOf, hp]
  · simp [processAlarm, he, ht]
  · simp only [processAlarm, he, Bool.false_eq_true, if_false]
    cases o.task <;> cases o.logOk <;> rfl
  · intro hl
    simp only [processAlarm, he, Bool.false_eq_true, if_false]
    cases o.task <;> simp [writeLog, hl]
  · intro hl
    simp only [processAlarm, he, Bool.false_eq_true, if_false]
    cases o.task <;> simp [writeLog, hl]
  · simp [processAlarm, he]

/-- Witness for the amended C3 at a concrete throwing task, in both
variants. -/
theorem task_failure_amended_witness :
    failedTaskAlarmOutcome.expired = false
    ∧ failedTaskAlarmOutcome.task = .thrown (some "boom")
    ∧ (∃ fin : AgentJobState,
        (processAlarm sampleAgentState failedTaskAlarmOutcome).saves.getLast? = some fin
        ∧ fin.status = .error
        ∧ fin.error = some { code := "TASK_FAILED", message := taskErrorMessage (some "boom") }
        ∧ fin.completed_at = some failedTaskAlarmOutcome.now
        ∧ fin.result = sampleAgentState.result)
    ∧ (processAlarm sampleAgentState failedTaskAlarmOutcome).log.logAttempts = 1
    ∧ (processJob (initialJobState sampleRequest "E1" "2025-01-01T00:00:00Z")
          (.thrown (some "boom")) true "2025-01-01T00:05:00Z").finalState.status = .error :=
  ⟨rfl, rfl,
   (task_failure_amended.1 sampleAgentState failedTaskAlarmOutcome (some "boom") rfl rfl).1,
   (task_failure_amended.1 sampleAgentState failedTaskAlarmOutcome (some "boom") rfl rfl).2.2.1,
   (task_failure_amended.2 (initialJobState sampleRequest "E1" "2025-01-01T00:00:00Z")
      (some "boom") true "2025-01-01T00:05:00Z").1⟩

/-- C6: the record persisted by the runner, and its refusal to re-arm,
do not depend on the outcome of the log flush or of the status
propagation — in both variants the saved states are identical whether
those external writes succeed or fail, and `processAlarm` always
returns `false` (no further alarm). -/
theorem propagation_failure_leaves_record_alone :
    (∀ (s : AgentJobState) (e : Bool) (t : TaskOutcome) (lg : Bool)
        (pr : Nat → AttemptOutcome) (jt : Nat → Nat) (now : String),
      (processAlarm s { expired := e, task := t, logOk := lg, prop := pr,
                        jitter := jt, now := now }).saves
        = (processAlarm s { expired := e, task := t, logOk := true,
                            prop := fun _ => .success, jitter := fun _ => 0,
                            now := now }).saves
      ∧ (processAlarm s { expired := e, task := t, logOk := lg, prop := pr,
                          jitter := jt, now := now }).rearm = false)
    ∧ (∀ (st : JobState) (t : TaskOutcome) (lg : Bool) (now : String),
      (processJob st t lg now).saves = (processJob st t true now).saves
      ∧ (processJob st t lg now).finalState = (processJob st t true now).finalState) :=
  ⟨fun s e t lg pr jt now => by cases e <;> exact ⟨rfl, rfl⟩,
   fun st t lg now => ⟨rfl, rfl⟩⟩

/-- Helper: every delay drawn from the backoff schedule is the base
exponential plus its jitter, hence within a 100ms window. -/
theorem backoff_window (j : Nat → Nat) (hj : ∀ i, j i < 100) (n d : Nat)
    (hd : d ∈ (List.range n).map (fun k => backoffDelay k j)) :
    ∃ k, d = 2 ^ k * 100 + j k ∧ 2 ^ k * 100 ≤ d ∧ d < 2 ^ k * 100 + 100 := by
  simp only [List.mem_map, List.mem_range] at hd
  obtain ⟨k, _, rfl⟩ := hd
  exact ⟨k, rfl, Nat.le_add_right _ _, by have := hj k; simp only [backoffDelay]; omega⟩

/-- Closed form of `updateJobCollectionStatus`, determined by the first
attempt whose outcome makes the loop body return: success, a missing
collection, or a non-conflict error response; throws and conflict
responses retry (a delay before each retry), up to 3 attempts. -/
theorem update_spec (o : Nat → AttemptOutcome) (j : Nat → Nat) :
    updateJobCollectionStatus o j =
      if stopsLoop (o 0) then
        { attempts := 1, succeeded := decide (o 0 = .success),
          abortedMissing := decide (o 0 = .collectionMissing), delays := [] }
      else if stopsLoop (o 1) then
        { attempts := 2, succeeded := decide (o 1 = .success),
          abortedMissing := decide (o 1 = .collectionMissing),
          delays := [backoffDelay 0 j] }
      else
        { attempts := 3, succeeded := decide (o 2 = .success),
          abortedMissing := decide (o 2 = .collectionMissing),
          delays := [backoffDelay 0 j, backoffDelay 1 j] } := by
  rcases h0 : o 0 with _ | _ | _ | (_ | _) | _ <;>
  rcases h1 : o 1 with _ | _ | _ | (_ | _) | _ <;>
  rcases h2 : o 2 with _ | _ | _ | (_ | _) | _ <;>
  simp [updateJobCollectionStatus, updateAttempts, h0, h1, h2, stopsLoop]

/-- Counterexample to C5: a PUT that fails with a non-conflict error
response on the very first attempt is not retried — the function
returns after exactly one update attempt with no backoff sleep,
contradicting the claim that "any other failure also triggers a
retry". -/
theorem propagation_no_retry_on_plain_failure :
    nonConflictOutcomes 0 = .putError false
    ∧ (updateJobCollectionStatus nonConflictOutcomes (fun _ => 0)).attempts = 1
    ∧ (updateJobCollectionStatus nonConflictOutcomes (fun _ => 0)).succeeded = false
    ∧ (updateJobCollectionStatus nonConflictOutcomes (fun _ => 0)).delays = [] := by
  decide

/-- C5 as amended: the propagator makes at most 3 total update
attempts, each starting with the version fetch; a missing collection
aborts immediately with no retry; a version-conflict error response and
a thrown request failure trigger a retry, but any other error response
aborts immediately without retry; success stops; the k-th retry
(0-indexed) is preceded by a wait of `100·2^k` ms plus that attempt's
jitter in `[0, 100)` ms (with only 3 attempts the exponential never
exceeds 200ms, so the spec's cap is never exercised). -/
theorem propagation_retry_amended (o : Nat → AttemptOutcome) (j : Nat → Nat)
    (hj : ∀ i, j i < 100) :
    (1 ≤ (updateJobCollectionStatus o j).attempts
      ∧ (updateJobCollectionStatus o j).attempts ≤ 3)
    ∧ (updateJobCollectionStatus o j).delays
        = (List.range ((updateJobCollectionStatus o j).attempts - 1)).map
            (fun k => backoffDelay k j)
    ∧ (∀ d ∈ (updateJobCollectionStatus o j).delays,
        ∃ k, d = 2 ^ k * 100 + j k ∧ 2 ^ k * 100 ≤ d ∧ d < 2 ^ k * 100 + 100)
    ∧ (∀ k, k + 1 < (updateJobCollectionStatus o j).attempts → stopsLoop (o k) = false)
    ∧ ((updateJobCollectionStatus o j).attempts < 3 →
        stopsLoop (o ((updateJobCollectionStatus o j).attempts - 1)) = true)
    ∧ (o 0 = .collectionMissing →
        (updateJobCollectionStatus o j).attempts = 1
        ∧ (updateJobCollectionStatus o j).abortedMissing = true
        ∧ (updateJobCollectionStatus o j).delays = [])
    ∧ ((updateJobCollectionStatus o j).succeeded = true
        ↔ o ((updateJobCollectionStatus o j).attempts - 1) = .success) := by
  rw [update_spec o j]
  cases h0 : stopsLoop (o 0)
  · rw [if_neg (by simp [h0])]
    cases h1 : stopsLoop (o 1)
    · -- three attempts: both early outcomes retried
      rw [if_neg (by simp [h1])]
      refine ⟨by norm_num, by simp [List.range_succ], ?_, ?_, ?_, ?_, by simp⟩
      · intro d hd
        refine backoff_window j hj 2 d ?_
        simpa [List.range_succ] using hd
      · intro k hk
        have hk' : k + 1 < 3 := hk
        match k with
        | 0 => exact h0
        | 1 => exact h1
        | k + 2 => omega
      · intro h
        simp at h
      · intro hc
        rw [hc] at h0
        simp [stopsLoop] at h0
    · -- stops at the second attempt
      rw [if_pos (by simp [h1])]
      refine ⟨by norm_num, by simp [List.range_succ], ?_, ?_, fun _ => h1, ?_, by simp⟩
      · intro d hd
        refine backoff_window j hj 1 d ?_
        simpa [List.range_succ] using hd
      · intro k hk
        have hk' : k + 1 < 2 := hk
        match k with
        | 0 => exact h0
        | k + 1 => omega
      · intro hc
        rw [hc] at h0
        simp [stopsLoop] at h0
  · -- stops at the first attempt
    rw [if_pos (by simp [h0])]
    refine ⟨by norm_num, by simp, ?_, ?_, fun _ => h0, ?_, by simp⟩
    · intro d hd
      simp at hd
    · intro k hk
      have hk' : k + 1 < 1 := hk
      omega
    · intro hc
      simp [hc]

/-- Witness for the amended C5 at concrete outcomes (every request
throws) and jitter 50ms. -/
theorem propagation_retry_amended_witness :
    (∀ i : Nat, (fun _ : Nat => 50) i < 100)
    ∧ (1 ≤ (updateJobCollectionStatus (fun _ => .getThrows) (fun _ => 50)).attempts
        ∧ (updateJobCollectionStatus (fun _ => .getThrows) (fun _ => 50)).attempts ≤ 3)
    ∧ (updateJobCollectionStatus (fun _ => .getThrows) (fun _ => 50)).delays
        = (List.range ((updateJobCollectionStatus (fun _ => .getThrows) (fun _ => 50)).attempts - 1)).map
            (fun k => backoffDelay k (fun _ => 50)) :=
  ⟨fun _ => (by decide : (50 : Nat) < 100),
   (propagation_retry_amended (fun _ => .getThrows) (fun _ => 50)
     (fun _ => (by decide : (50 : Nat) < 100))).1,
   (propagation_retry_amended (fun _ => .getThrows) (fun _ => 50)
     (fun _ => (by decide : (50 : Nat) < 100))).2.1⟩

/-- Helper: the record `handleStart` persists on first sight of a job
is exactly the initial pending record. -/
theorem handleStart_saved {req : StartRequest} {now : String} {st : AgentJobState}
    (h : (handleStart none req now).2.saved = some st) :
    st = initialAgentState req (((req.input).map TaskInput.entity_id).getD "") now := by
  by_cases he : ((req.input).map TaskInput.entity_id).getD "" = "" <;>
    simp [handleStart, he] at h
  exact h.symm

/-- Helper: one alarm run persists the running transition (when entered
pending) followed by exactly one terminal record, which carries a
completion timestamp. -/
theorem processAlarm_saves_shape (s : AgentJobState) (o : AlarmOutcome) :
    ∃ t : AgentJobState,
      (processAlarm s o).saves
        = (if s.status = .pending then [runningOf s] else []) ++ [t]
      ∧ t.status.isTerminal = true
      ∧ t.completed_at.isSome = true := by
  cases he : o.expired
  · cases ht : o.task with
    | ok r =>
      refine ⟨{ runningOf s with
                  status := .done, result := some r, completed_at := some o.now,
                  progress := { (runningOf s).progress with dispatched := 0, done := 1 } },
              ?_, rfl, rfl⟩
      simp [processAlarm, he, ht]
    | thrown m =>
      refine ⟨{ runningOf s with
                  status := .error,
                  error := some { code := "TASK_FAILED", message := taskErrorMessage m },
                  completed_at := some o.now,
                  progress := { (runningOf s).progress with dispatched := 0, error := 1 } },
              ?_, rfl, rfl⟩
      simp [processAlarm, he, ht]
  · refine ⟨failJob (runningOf s) "EXPIRED" "Job expired before completion" o.now, ?_, rfl, rfl⟩
    simp [processAlarm, he]

/-- Helper: the runner preserves the record invariant across every
state it persists during one alarm run. -/
theorem alarm_preserves_inv (s : AgentJobState) (o : AlarmOutcome)
    (hs : RecordInv s) (hnt : s.status.isTerminal = false) :
    ∀ x ∈ (processAlarm s o).saves, RecordInv x := by
  obtain ⟨hca, hpr⟩ := hs
  intro x hx
  cases hst : s.status
  · -- pending entry
    rw [hst] at hca hpr
    cases he : o.expired
    · rcases ht : o.task with r | m <;>
        simp [processAlarm, runningOf, hst, he, ht] at hx <;>
        rcases hx with hx | hx <;> subst hx <;>
        exact ⟨by simp [hca, Status.isTerminal], by simp [hpr, progressFor]; try rfl⟩
    · simp [processAlarm, runningOf, failJob, hst, he] at hx
      rcases hx with hx | hx <;> subst hx <;>
        exact ⟨by simp [hca, Status.isTerminal], by simp [hpr, progressFor]; try rfl⟩
  · -- running entry
    rw [hst] at hca hpr
    cases he : o.expired
    · rcases ht : o.task with r | m <;>
        simp [processAlarm, runningOf, hst, he, ht] at hx <;> subst hx <;>
        exact ⟨by simp [hca, Status.isTerminal], by simp [hpr, progressFor]; try rfl⟩
    · simp [processAlarm, runningOf, failJob, hst, he] at hx
      subst hx
      exact ⟨by simp [hca, Status.isTerminal], by simp [hpr, progressFor]; try rfl⟩
  · simp [Status.isTerminal, hst] at hnt
  · simp [Status.isTerminal, hst] at hnt

/-- Helper: every record persisted along a lifecycle trace satisfies
the record invariant. -/
theorem trace_inv {ws : List AgentJobState} (h : Trace ws) :
    ∀ x ∈ ws, RecordInv x := by
  induction h with
  | start req now st hsaved =>
    intro x hx
    simp at hx
    subst hx
    rw [handleStart_saved hsaved]
    exact ⟨rfl, rfl⟩
  | alarm ws s o ht hlast hnt ih =>
    intro x hx
    rcases List.mem_append.mp hx with h1 | h2
    · exact ih x h1
    · have hsmem : s ∈ ws := by
        have hws : ws.dropLast ++ [s] = ws := List.dropLast_append_getLast? s hlast
        rw [← hws]
        simp
      exact alarm_preserves_inv s o (ih s hsmem) hnt x h2

/-- Helper: terminal records sit at rank 2. -/
theorem rank_of_terminal {x : AgentJobState} (h : x.status.isTerminal = true) :
    x.status.rank = 2 := by
  cases hx : x.status <;> simp [hx, Status.isTerminal] at h ⊢ <;> rfl

/-- Helper: along every Durable-Object lifecycle trace, status rank is
non-decreasing and a terminal record is only ever the final write. -/
theorem status_forward_only {ws : List AgentJobState} (h : Trace ws) :
    List.Chain' (fun a b => a.status.rank ≤ b.status.rank) ws
    ∧ ∀ x ∈ ws.dropLast, x.status.isTerminal = false := by
  induction h with
  | start req now st hsaved => exact ⟨List.chain'_singleton st, by simp⟩
  | alarm ws s o ht hlast hnt ih =>
    obtain ⟨t, hshape, hterm, _⟩ := processAlarm_saves_shape s o
    have hws : ws.dropLast ++ [s] = ws := List.dropLast_append_getLast? s hlast
    have hmem_ws : ∀ x ∈ ws, x.status.isTerminal = false := by
      intro x hxw
      have hx2 : x ∈ ws.dropLast ++ [s] := by rw [hws]; exact hxw
      rcases List.mem_append.mp hx2 with h1 | h1
      · exact ih.2 x h1
      · simp at h1
        subst h1
        exact hnt
    have hrank_s : s.status.rank ≤ 1 := by
      cases hst : s.status <;> simp [hst, Status.isTerminal] at hnt ⊢ <;> simp [Status.rank]
    rw [hshape]
    by_cases hp : s.status = .pending
    · rw [if_pos hp]
      constructor
      · refine List.Chain'.append ih.1 ?_ ?_
        · refine List.chain'_pair.mpr ?_
          rw [rank_of_terminal hterm]
          simp [runningOf, hp, Status.rank]
        · intro a ha b hb
          have ha' : a = s := by
            rw [hlast] at ha
            exact (Option.some.inj ha).symm
          have hb' : b = runningOf s :=
            (Option.some.inj (show some (runningOf s) = some b from hb)).symm
          subst ha'
          subst hb'
          simp [runningOf, hp, Status.rank]
      · rw [← List.append_assoc, List.dropLast_concat]
        intro x hx
        rcases List.mem_append.mp hx with h1 | h1
        · exact hmem_ws x h1
        · simp at h1
          subst h1
          simp [runningOf, hp, Status.isTerminal]
    · rw [if_neg hp]
      constructor
      · refine List.Chain'.append ih.1 (List.chain'_singleton t) ?_
        intro a ha b hb
        have ha' : a = s := by
          rw [hlast] at ha
          exact (Option.some.inj ha).symm
        have hb' : b = t :=
          (Option.some.inj (show some t = some b from hb)).symm
        subst ha'
        subst hb'
        rw [rank_of_terminal hterm]
        omega
      · rw [List.nil_append, List.dropLast_concat]
        exact hmem_ws

/-- Counterexample to C4: the Hono/KV handlers produce a write sequence
that breaks the forward-only order and terminal immutability — with the
completed (terminal) record of `J1` in the store, an accepted duplicate
`POST /process` overwrites it with a fresh `pending` record: a write
after `done` that changes the record and moves the status backwards. -/
theorem handler_writes_after_terminal :
    (getJobState kvWithDoneJob "J1").map JobState.status = some .done
    ∧ Status.done.isTerminal = true
    ∧ (processHandler dupProcessInput kvWithDoneJob).1.isAccepted = true
    ∧ (getJobState (processHandler dupProcessInput kvWithDoneJob).2.1 "J1").map JobState.status
        = some .pending
    ∧ Status.pending.rank < Status.done.rank :=
  ⟨rfl, rfl, rfl, rfl, by decide⟩

/-- C4 as amended: in the Durable-Object lifecycle every persisted
sequence of records moves the status only forward along
`pending → running → {done|error}` and a terminal record is only ever
the final write.  In the Hono/KV variant the same holds for the write
sequence of a single accepted request — the pending record the handler
creates followed by the `processJob` saves — but not across requests:
an accepted duplicate `POST /process` overwrites the stored record,
even a terminal one, with a fresh pending state (see the
counterexample). -/
theorem status_forward_only_amended :
    (∀ ws : List AgentJobState, Trace ws →
        List.Chain' (fun a b => a.status.rank ≤ b.status.rank) ws
        ∧ ∀ x ∈ ws.dropLast, x.status.isTerminal = false)
    ∧ (∀ (i : ProcessInput) (kv : Store) (st : JobState) (t : TaskOutcome)
          (lg : Bool) (now : String),
        (processHandler i kv).2.2 = some st →
        List.Chain' (fun a b => a.status.rank ≤ b.status.rank)
          (st :: (processJob st t lg now).saves)
        ∧ ∀ x ∈ (st :: (processJob st t lg now).saves).dropLast,
            x.status.isTerminal = false) := by
  constructor
  · exact fun ws h => status_forward_only h
  · intro i kv st t lg now hbg
    rcases processHandler_cases i kv with ⟨_, _, hnone⟩ | ⟨req, _, _, _, _, _, heq⟩
    · rw [hnone] at hbg
      cases hbg
    · rw [heq] at hbg
      simp only [Option.some.injEq] at hbg
      subst hbg
      constructor
      · rcases t with r | m <;>
          simp [processJob, List.chain'_cons, List.chain'_singleton,
                Status.rank, initialJobState]
      · intro x hx
        rcases t with r | m <;> simp [processJob] at hx <;>
          rcases hx with hx | hx <;> subst hx <;> rfl

/-- Witness for the amended C4: a concrete two-step Durable-Object
lifecycle and a concrete accepted Hono/KV request. -/
theorem status_forward_only_amended_witness :
    List.Chain' (fun a b => a.status.rank ≤ b.status.rank)
      ([sampleAgentState] ++ (processAlarm sampleAgentState okAlarmOutcome).saves)
    ∧ List.Chain' (fun a b => a.status.rank ≤ b.status.rank)
        ((initialJobState sampleRequest "E1" "2025-01-01T00:00:00Z")
          :: (processJob (initialJobState sampleRequest "E1" "2025-01-01T00:00:00Z")
                (.ok sampleResult) true "2025-01-01T00:05:00Z").saves) :=
  ⟨(status_forward_only_amended.1 _
      (Trace.alarm [sampleAgentState] sampleAgentState okAlarmOutcome
        (Trace.start sampleStartRequest "2025-01-01T00:00:00Z" sampleAgentState rfl)
        rfl rfl)).1,
   (status_forward_only_amended.2 sampleProcessInput []
      (initialJobState sampleRequest "E1" "2025-01-01T00:00:00Z")
      (.ok sampleResult) true "2025-01-01T00:05:00Z" rfl).1⟩

/-- C8: the progress counters of every record a lifecycle trace
persists sum to `total` — at creation and across the `pending→running`,
`running→done` and `running→error` transitions. -/
theorem progress_sums_to_total {ws : List AgentJobState} (h : Trace ws) :
    ∀ x ∈ ws, x.progress.pending + x.progress.dispatched + x.progress.done
        + x.progress.error = x.progress.total := by
  intro x hx
  rw [(trace_inv h x hx).2]
  cases x.status <;> rfl

/-- Witness for C8 at the freshly created record. -/
theorem progress_sums_to_total_witness :
    sampleAgentState.progress.pending + sampleAgentState.progress.dispatched
        + sampleAgentState.progress.done + sampleAgentState.progress.error
      = sampleAgentState.progress.total :=
  progress_sums_to_total
    (Trace.start sampleStartRequest "2025-01-01T00:00:00Z" sampleAgentState rfl)
    sampleAgentState (by simp)

/-- C10: `completed_at` is present exactly on terminal records — in the
Durable-Object lifecycle every persisted record satisfies the
iff, and in the Hono/KV variant the pending record created by the
handler and both states persisted by `processJob` satisfy it. -/
theorem completed_at_iff_terminal :
    (∀ ws : List AgentJobState, Trace ws →
        ∀ x ∈ ws, x.completed_at.isSome = x.status.isTerminal)
    ∧ (∀ (i : ProcessInput) (kv : Store) (st : JobState) (t : TaskOutcome)
          (lg : Bool) (now : String),
        (processHandler i kv).2.2 = some st →
        st.completed_at.isSome = st.status.isTerminal
        ∧ ∀ x ∈ (processJob st t lg now).saves,
            x.completed_at.isSome = x.status.isTerminal) := by
  constructor
  · intro ws h x hx
    exact (trace_inv h x hx).1
  · intro i kv st t lg now hbg
    rcases processHandler_cases i kv with ⟨_, _, hnone⟩ | ⟨req, _, _, _, _, _, heq⟩
    · rw [hnone] at hbg
      cases hbg
    · rw [heq] at hbg
      simp only [Option.some.injEq] at hbg
      subst hbg
      refine ⟨rfl, ?_⟩
      intro x hx
      rcases t with r | m <;> simp [processJob] at hx <;>
        rcases hx with hx | hx <;> subst hx <;> rfl

/-- Witness for C10: the iff at the created records of both variants. -/
theorem completed_at_iff_terminal_witness :
    sampleAgentState.completed_at.isSome = sampleAgentState.status.isTerminal
    ∧ (initialJobState sampleRequest "E1" "2025-01-01T00:00:00Z").completed_at.isSome
        = (initialJobState sampleRequest "E1" "2025-01-01T00:00:00Z").status.isTerminal :=
  ⟨completed_at_iff_terminal.1 [sampleAgentState]
      (Trace.start sampleStartRequest "2025-01-01T00:00:00Z" sampleAgentState rfl)
      sampleAgentState (by simp),
   (completed_at_iff_terminal.2 sampleProcessInput []
      (initialJobState sampleRequest "E1" "2025-01-01T00:00:00Z")
      (.ok sampleResult) true "2025-01-01T00:05:00Z" rfl).1⟩

end Agent
